import Mathlib

/-!
Shallow embedding of the core of the `ai-coding-assistant` repository
(`ai-agent-runtime`): the capability registry and resolver
(`mcp/registry.py`), the file-access guard (`middleware.py`), the
execution context (`context.py`), the classification parser
(`agents/supervisor.py`), the specialist agent outputs
(`agents/code_expert.py`, `agents/knowledge_scout.py`) and the
orchestration graph (`orchestrator.py`).

External effects (the LLM call, the OS path resolver, the filesystem)
are modelled as explicit parameters; everything else is translated
directly from the Python source.
-/

set_option autoImplicit false

namespace AiAgentRuntime

/-! ## Python string helpers

`pyStrip` models Python `str.strip()`: remove leading and trailing
whitespace.  `firstToken` models `s.split()[0]` (split on whitespace
runs, first piece), returning `none` where Python would raise
`IndexError`. -/

def lstripData (l : List Char) : List Char := l.dropWhile Char.isWhitespace

def rstripData (l : List Char) : List Char :=
  (l.reverse.dropWhile Char.isWhitespace).reverse

def pyStrip (s : String) : String := ⟨rstripData (lstripData s.data)⟩

/-- Python `str.split(sep)` for a non-empty separator, at the character
level: split at each non-overlapping occurrence of `sep`, left to right.
The fuel argument (instantiated with the length of the input, an upper
bound on the number of steps) keeps the recursion structural. -/
def splitOnFuel (sep : List Char) : Nat → List Char → List Char →
    List (List Char)
  | _, [], acc => [acc.reverse]
  | 0, l, acc => [acc.reverse ++ l]
  | fuel + 1, c :: rest, acc =>
    if sep.isPrefixOf (c :: rest) then
      acc.reverse :: splitOnFuel sep fuel (rest.drop (sep.length - 1)) []
    else
      splitOnFuel sep fuel rest (c :: acc)

/-- Python `s.split(sep)` for a non-empty separator `sep`. -/
def pySplitOn (sep : String) (s : String) : List String :=
  (splitOnFuel sep.data s.data.length s.data []).map (fun l => ⟨l⟩)

/-- Split at every character satisfying `p`, keeping empty pieces. -/
def splitCharsAux (p : Char → Bool) : List Char → List Char →
    List (List Char)
  | [], acc => [acc.reverse]
  | c :: rest, acc =>
    if p c then acc.reverse :: splitCharsAux p rest []
    else splitCharsAux p rest (c :: acc)

/-- Python `s.split()` keeps only the non-empty pieces between
whitespace runs; `firstToken` is `s.split()[0]` as an `Option`. -/
def firstToken (s : String) : Option String :=
  (((splitCharsAux Char.isWhitespace s.data []).map
      (fun l => (⟨l⟩ : String))).filter (fun t => t ≠ "")).head?

/-! ## Capability registry and resolver (`mcp/registry.py`)

`MCPRegistry.AVAILABLE_TOOLS` is a static dict from tool name to the
contexts the tool is available in; Python dicts preserve insertion
order, so a list of pairs in source order is a faithful model. -/

def AVAILABLE_TOOLS : List (String × List String) :=
  [ ("lsp", ["nvim", "vscode"]),
    ("tree-sitter", ["nvim", "vscode"]),
    ("nvim-mcp", ["nvim"]),
    ("continue-mcp", ["vscode"]),
    ("filesystem", ["nvim", "vscode", "shell", "web"]),
    ("git", ["nvim", "vscode", "shell"]),
    ("web-search", ["shell", "web"]) ]

/-- `MCPRegistry.get_available_tools`, reduced to the tool names
(`resolve_tools` only uses the name set `{t.name for t in ...}`). -/
def available_tool_names (context : String) : List String :=
  (AVAILABLE_TOOLS.filter (fun p => decide (context ∈ p.2))).map (fun p => p.1)

/-- The dict returned by `MCPRegistry.resolve_tools`. -/
structure ToolResolution where
  resolved : List String
  missing_required : List String
  missing_optional : List String
  available_in_context : List String
deriving DecidableEq, Repr

/-- `MCPRegistry.resolve_tools`.  The two `for` loops append into the
single `resolved` list (required pass first, then optional pass); a
non-empty `missing_required` under `fallback_mode == "fail"` raises
`ValueError` naming `missing_required`, modelled as `Except.error`
carrying that list. -/
def resolve_tools (required optional : List String) (context : String)
    (fallback_mode : String) : Except (List String) ToolResolution :=
  let available := available_tool_names context
  let resolved :=
    required.filter (fun n => decide (n ∈ available))
      ++ optional.filter (fun n => decide (n ∈ available))
  let missing_required := required.filter (fun n => decide (n ∉ available))
  let missing_optional := optional.filter (fun n => decide (n ∉ available))
  if missing_required ≠ [] ∧ fallback_mode = "fail" then
    Except.error missing_required
  else
    Except.ok { resolved := resolved, missing_required := missing_required,
                missing_optional := missing_optional,
                available_in_context := available }

/-! ## Execution context (`context.py`)

The OS facilities used by `AgentContext.allowed_roots` are passed in
explicitly: `isDir` models `Path.is_dir()`, `resolvePath` models
`Path(...).resolve()` (a string-to-string map onto absolute,
symlink-free paths), `home` models `Path.home()`.  The second component
of the result is the list of warning messages the property logs: the
source contains no logging call, so it is always empty. -/

inductive ContextSource where
  | shell
  | nvim
  | vscode
  | web
deriving DecidableEq, Repr

/-- `AgentContext.allowed_roots`: resolve the working directory, fall
back to the home directory when it is not an existing directory, then
return one root per source kind (all four branches of the source
`if/elif` return `[str(working_path)]`; the final `else` is
unreachable because `ContextSource` has exactly these four values). -/
def allowed_roots (isDir : String → Bool) (resolvePath : String → String)
    (home : String) (source : ContextSource) (working_dir : String) :
    List String × List String :=
  let wp := resolvePath working_dir
  let wp2 := if isDir wp then wp else home
  match source with
  | .shell => ([wp2], [])
  | .nvim => ([wp2], [])
  | .vscode => ([wp2], [])
  | .web => ([wp2], [])

/-! ## File-access guard (`middleware.py`)

`Path.resolve` is modelled as a partial map `res` from path strings to
absolute paths given as component lists (`none` = resolution raised).
`Path.relative_to(root)` succeeds exactly when the resolved root's
component list is a prefix of the resolved target's component list. -/

/-- The `filesystem_tools` dict of
`FileAccessMiddleware._validate_and_execute`: tool name to the argument
fields that carry paths. -/
def FILESYSTEM_TOOLS : List (String × List String) :=
  [ ("read_file", ["path"]),
    ("write_file", ["path"]),
    ("edit_file", ["path"]),
    ("create_directory", ["path"]),
    ("list_directory", ["path"]),
    ("move_file", ["source", "destination"]),
    ("search_files", ["path"]),
    ("get_file_info", ["path"]) ]

/-- Loop of `FileAccessMiddleware._is_path_allowed` over
`context.allowed_roots`: a root that fails to resolve raises out of the
enclosing `try`, so the whole check returns `false`. -/
def rootsLoop (res : String → Option (List String)) (target : List String) :
    List String → Bool
  | [] => false
  | r :: rs =>
    match res r with
    | none => false
    | some ar => if ar.isPrefixOf target then true else rootsLoop res target rs

/-- `FileAccessMiddleware._is_path_allowed`: resolve the candidate path
(`none` = exception = deny) and accept iff some allowed root resolves to
a prefix of it. -/
def is_path_allowed (res : String → Option (List String))
    (roots : List String) (path : String) : Bool :=
  match res path with
  | none => false
  | some target => rootsLoop res target roots

/-- Result of the guard: `allow` means the wrapped handler is executed,
`deny` returns the error dict without executing the tool. -/
inductive Decision where
  | allow
  | deny (reason : String)
deriving DecidableEq, Repr

/-- The denial text built by `_validate_and_execute`. -/
def denyReason (path sourceVal : String) (roots : List String) : String :=
  "Access denied: Path " ++ path ++ " is not accessible in " ++ sourceVal
    ++ " context. Allowed directories: " ++ String.intercalate ", " roots

/-- `if field in tool_input: path = tool_input[field]`, with the tool
arguments as an association list. -/
def lookupArg (args : List (String × String)) (f : String) : Option String :=
  args.lookup f

/-- The `for field in path_fields` loop of `_validate_and_execute`:
skip fields absent from the arguments, deny on the first disallowed
path, otherwise fall through to the handler (allow). -/
def checkFields (res : String → Option (List String)) (roots : List String)
    (sourceVal : String) (args : List (String × String)) :
    List String → Decision
  | [] => .allow
  | f :: fs =>
    match lookupArg args f with
    | none => checkFields res roots sourceVal args fs
    | some p =>
      if is_path_allowed res roots p then checkFields res roots sourceVal args fs
      else .deny (denyReason p sourceVal roots)

/-- `FileAccessMiddleware._validate_and_execute` (the async variant
duplicates the same logic): tools outside `FILESYSTEM_TOOLS` are passed
straight to the handler. -/
def validate_tool_call (res : String → Option (List String))
    (roots : List String) (sourceVal : String) (toolName : String)
    (args : List (String × String)) : Decision :=
  match FILESYSTEM_TOOLS.lookup toolName with
  | none => .allow
  | some fields => checkFields res roots sourceVal args fields

/-! ## Classification parsing (`agents/supervisor.py`) -/

/-- The `for line in response.split("\n")` loop of
`SupervisorAgent._parse_classification`: on a line containing
`CLASSIFICATION:`, take the segment after the first occurrence
(`line.split("CLASSIFICATION:")[1]`) and return its first
whitespace-separated token; an `IndexError` (no token) is swallowed by
`except: pass` and the loop continues; if no line yields a token the
default `"CODE_TASK"` is returned. -/
def classificationLoop : List String → String
  | [] => "CODE_TASK"
  | line :: rest =>
    match (pySplitOn "CLASSIFICATION:" line).get? 1 with
    | none => classificationLoop rest
    | some seg =>
      match firstToken seg with
      | none => classificationLoop rest
      | some tok => tok

/-- `SupervisorAgent._parse_classification`. -/
def parse_classification (response : String) : String :=
  classificationLoop (pySplitOn "\n" response)

/-- The loop of `SupervisorAgent._parse_reasoning`. -/
def reasoningLoop : List String → String
  | [] => ""
  | line :: rest =>
    match (pySplitOn "REASONING:" line).get? 1 with
    | none => reasoningLoop rest
    | some seg => pyStrip seg

/-- `SupervisorAgent._parse_reasoning`. -/
def parse_reasoning (response : String) : String :=
  reasoningLoop (pySplitOn "\n" response)

/-! ## Agent outputs (`agents/base.py`, `agents/code_expert.py`,
`agents/knowledge_scout.py`, `agents/supervisor.py`)

The LLM reply (`response.content`) is an opaque input string.  The
pydantic model `AgentOutput` in `base.py` declares its tools field as
`toolsused` (no underscore) with default `[]`.  Each `_execute` body
passes the resolved tool list under the keyword `tools_used=`, which
does not match any declared field; pydantic ignores unknown constructor
keywords by default, so the keyword is silently dropped and the
constructed output's `toolsused` keeps its default `[]` whatever the
resolved list is.  The `metadata` dict is modelled as an association
list. -/

structure AgentOutputModel where
  content : String
  toolsused : List String := []
  reasoning : String := ""
  metadata : List (String × String) := []
deriving DecidableEq, Repr

set_option linter.unusedVariables false in
/-- `CodeExpertAgent._execute` (output construction): the `resolved`
argument is what the body passes as the ignored `tools_used=` keyword;
it never reaches the constructed output, whose `toolsused` stays `[]`. -/
def codeExpert_execute (responseContent : String) (resolved : List String)
    (context : String) : AgentOutputModel :=
  { content := responseContent, toolsused := [],
    metadata := [("agent_type", "code_expert"), ("context", context)] }

set_option linter.unusedVariables false in
/-- `KnowledgeScoutAgent._execute` (output construction): the
`tools_used=` keyword carrying `resolved` is likewise dropped. -/
def knowledgeScout_execute (responseContent : String) (resolved : List String)
    (context : String) : AgentOutputModel :=
  { content := responseContent, toolsused := [],
    metadata := [("agent_type", "knowledge_scout"), ("context", context)] }

set_option linter.unusedVariables false in
/-- `SupervisorAgent._execute` (output construction): content is the raw
LLM reply, the classification and reasoning are parsed from it; the
`tools_used=` keyword carrying `resolved` is dropped as above. -/
def supervisor_execute (responseText : String) (resolved : List String) :
    AgentOutputModel :=
  { content := responseText, toolsused := [],
    reasoning := parse_reasoning responseText,
    metadata := [("classification", parse_classification responseText)] }

set_option linter.unusedVariables false in
/-- One Agent Unit invocation of the code expert, at the scope of
`BaseAgent.process_with_tools` followed by `_execute`: the LangChain
agent run inside `process_with_tools` may actually invoke tools (their
names are collected in `tool_calls_found` and logged), but only the
final text is returned; the invoked names are discarded, so they are an
environment input (`actuallyInvoked`) on which the returned output
cannot depend. -/
def codeExpert_invocation (actuallyInvoked : List String)
    (responseContent : String) (resolved : List String) (context : String) :
    AgentOutputModel :=
  codeExpert_execute responseContent resolved context

/-! ## Orchestrator (`orchestrator.py`)

`OrchestratorState` is the dataclass of the source; the outcome of each
`await agent.process(...)` call is an explicit input (`missing` = the
agent was not initialized, `raises` = the awaited call raised,
`returns` = it produced an output). -/

structure OState where
  query : String
  context : String
  classification : Option String := none
  classification_reasoning : String := ""
  code_expert_result : String := ""
  knowledge_result : String := ""
  final_response : String := ""
  tools_used : List String := []
  execution_path : List String := []
  errors : List String := []
deriving DecidableEq, Repr

/-- Outcome of `self.agents.get("supervisor")` plus
`supervisor.process(...)`: a returned output carries the raw LLM reply
(from which `classify_task` parses classification and reasoning) and the
tool-name list that `state.tools_used.extend(result.tools_used)` reads
off the result, kept abstract here. -/
inductive SupOutcome where
  | missing
  | raises (msg : String)
  | returns (responseText : String) (resolvedTools : List String)
deriving DecidableEq, Repr

/-- Outcome of a specialist lookup plus `agent.process(...)`. -/
inductive AgOutcome where
  | missing
  | raises (msg : String)
  | returns (content : String) (resolvedTools : List String)
deriving DecidableEq, Repr

/-- `MultiAgentOrchestrator.classify_task`: a missing supervisor records
an error and a `"classify_task (failed)"` path entry; an exception is
caught, recorded, and the classification defaults to `"CODE_TASK"`; a
returned output fills classification (parsed from the reply, see
`supervisor_execute`), reasoning, tools and path. -/
def classify_task (sup : SupOutcome) (s : OState) : OState :=
  match sup with
  | .missing =>
    { s with errors := s.errors ++ ["Supervisor agent not available"],
             execution_path := s.execution_path ++ ["classify_task (failed)"] }
  | .raises m =>
    { s with errors := s.errors ++ ["Classification error: " ++ m],
             classification := some "CODE_TASK" }
  | .returns respText stools =>
    { s with classification := some (parse_classification respText),
             classification_reasoning := parse_reasoning respText,
             tools_used := s.tools_used ++ stools,
             execution_path := s.execution_path ++ ["classify_task"] }

/-- `MultiAgentOrchestrator.execute_code_expert`: a missing agent only
logs a warning (state unchanged); an exception is caught and recorded;
a returned output fills the result, tools and path. -/
def execute_code_expert (ce : AgOutcome) (s : OState) : OState :=
  match ce with
  | .missing => s
  | .raises m => { s with errors := s.errors ++ ["Code expert error: " ++ m] }
  | .returns content tools =>
    { s with code_expert_result := content,
             tools_used := s.tools_used ++ tools,
             execution_path := s.execution_path ++ ["code_expert"] }

/-- `MultiAgentOrchestrator.execute_knowledge_scout`. -/
def execute_knowledge_scout (ks : AgOutcome) (s : OState) : OState :=
  match ks with
  | .missing => s
  | .raises m => { s with errors := s.errors ++ ["Knowledge scout error: " ++ m] }
  | .returns content tools =>
    { s with knowledge_result := content,
             tools_used := s.tools_used ++ tools,
             execution_path := s.execution_path ++ ["knowledge_scout"] }

/-- `MultiAgentOrchestrator.route_after_classification`: Python
`state.classification or "CODE_TASK"` replaces both `None` and the
empty string by the default. -/
def route_after_classification (s : OState) : String :=
  let c := match s.classification with
           | none => "CODE_TASK"
           | some v => if v = "" then "CODE_TASK" else v
  if c = "HYBRID_TASK" then "hybrid"
  else if c = "RESEARCH_TASK" then "research"
  else "code"

/-- `str(state.classification)` inside the f-string of
`compose_response`: Python formats `None` as `"None"`. -/
def classificationText (c : Option String) : String :=
  match c with
  | none => "None"
  | some v => v

/-- `', '.join(set(state.tools_used)) or 'none'`.  CPython's set
iteration order is an implementation detail; it is modelled as
first-occurrence order (`eraseDups`).  No claim depends on the order. -/
def joinToolsSet (tools : List String) : String :=
  let j := String.intercalate ", " tools.eraseDups
  if j = "" then "none" else j

/-- The f-string of the hybrid branch of
`MultiAgentOrchestrator.compose_response`, before `.strip()`. -/
def hybridText (s : OState) : String :=
  "**CODE SOLUTION:**\n\n" ++ s.code_expert_result
    ++ "\n\n---\n\n**CONTEXT & EXPLANATION:**\n\n" ++ s.knowledge_result
    ++ "\n\n---\n\n**Metadata:**\n- Classification: "
    ++ classificationText s.classification
    ++ "\n- Tools used: " ++ joinToolsSet s.tools_used
    ++ "\n- Execution path: " ++ String.intercalate " → " s.execution_path
    ++ "\n"

/-- `MultiAgentOrchestrator.compose_response`: `bool(str)` is
non-emptiness; the path entry is appended in every branch. -/
def compose_response (s : OState) : OState :=
  let final :=
    if s.code_expert_result ≠ "" ∧ s.knowledge_result ≠ "" then
      pyStrip (hybridText s)
    else if s.code_expert_result ≠ "" then s.code_expert_result
    else if s.knowledge_result ≠ "" then s.knowledge_result
    else "Unable to generate response. Please try again."
  { s with final_response := final,
           execution_path := s.execution_path ++ ["compose_response"] }

/-- One run of the compiled LangGraph of
`MultiAgentOrchestrator.build_graph`: `START → classify`, then the
conditional edge maps `route_after_classification` through
`{"code": "code_expert", "research": "knowledge_scout",
"hybrid": "code_expert"}`, then `code_expert → compose` and
`knowledge_scout → compose` (there is no edge from `code_expert` to
`knowledge_scout`), then `compose → END`. -/
def build_graph_run (sup : SupOutcome) (ce ks : AgOutcome) (s0 : OState) :
    OState :=
  let s1 := classify_task sup s0
  let branch := route_after_classification s1
  let s2 := if branch = "research" then execute_knowledge_scout ks s1
            else execute_code_expert ce s1
  compose_response s2

/-- The dict returned by `MultiAgentOrchestrator.execute`; the
`classification` key holds the state's value, which is `None` when the
supervisor was unavailable. -/
structure RunResult where
  query : String
  context : String
  response : String
  classification : Option String
  tools_used : List String
  execution_path : List String
  errors : List String
deriving DecidableEq, Repr

/-- `MultiAgentOrchestrator.execute`: build the initial state from the
query and context (all other fields defaulted), run the graph, and
package the result dict (`tools_used` goes through `list(set(...))`,
modelled in first-occurrence order). -/
def executeOrchestration (sup : SupOutcome) (ce ks : AgOutcome)
    (query context : String) : RunResult :=
  let r := build_graph_run sup ce ks { query := query, context := context }
  { query := query, context := context, response := r.final_response,
    classification := r.classification, tools_used := r.tools_used.eraseDups,
    execution_path := r.execution_path, errors := r.errors }

/-! ## Concrete environments used by witnesses and counterexamples -/

/-- A filesystem with a single directory `/home/user`. -/
def isDir₀ : String → Bool := fun s => s == "/home/user"

/-- A path resolver that leaves paths unchanged. -/
def resolveId₀ : String → String := fun s => s

/-- An absoluteness predicate under which every path is absolute. -/
def alwaysAbs : String → Bool := fun _ => true

/-- A concrete `Path.resolve` for the access-guard witness: the project
root, a file inside it, and one path outside it resolve; everything else
raises. -/
def res₀ : String → Option (List String) := fun s =>
  if s = "/home/user/project" then some ["home", "user", "project"]
  else if s = "/home/user/project/notes.txt" then
    some ["home", "user", "project", "notes.txt"]
  else if s = "/etc/passwd" then some ["etc", "passwd"]
  else none

/-! ## Helper lemmas -/

theorem isPrefixOf_iff_append {α : Type} [DecidableEq α] :
    ∀ (a b : List α), a.isPrefixOf b = true ↔ ∃ rest, b = a ++ rest := by
  intro a
  induction a with
  | nil => intro b; simp [List.isPrefixOf]
  | cons x xs ih =>
    intro b
    cases b with
    | nil => simp [List.isPrefixOf]
    | cons y ys =>
      simp only [List.isPrefixOf, Bool.and_eq_true, beq_iff_eq, ih,
        List.cons_append, List.cons.injEq]
      constructor
      · rintro ⟨rfl, rest, rfl⟩; exact ⟨rest, rfl, rfl⟩
      · rintro ⟨rest, rfl, rfl⟩; exact ⟨rfl, rest, rfl⟩

theorem resolve_tools_ok (required optional : List String) (context : String)
    (fallback_mode : String)
    (h : ¬(required.filter
        (fun n => decide (n ∉ available_tool_names context)) ≠ []
      ∧ fallback_mode = "fail")) :
    resolve_tools required optional context fallback_mode = Except.ok
      { resolved := required.filter
            (fun n => decide (n ∈ available_tool_names context))
          ++ optional.filter
            (fun n => decide (n ∈ available_tool_names context)),
        missing_required := required.filter
          (fun n => decide (n ∉ available_tool_names context)),
        missing_optional := optional.filter
          (fun n => decide (n ∉ available_tool_names context)),
        available_in_context := available_tool_names context } := by
  simp only [resolve_tools, if_neg h]

theorem pyStrip_data (s : String) :
    (pyStrip s).data = rstripData (lstripData s.data) := rfl

theorem dropWhile_append₂ (p : Char → Bool) (l₁ l₂ : List Char) :
    (l₁ ++ l₂).dropWhile p =
      if (l₁.dropWhile p).isEmpty then l₂.dropWhile p
      else l₁.dropWhile p ++ l₂ := by
  induction l₁ with
  | nil => simp
  | cons x xs ih =>
    by_cases hp : p x = true
    · simpa [hp] using ih
    · simp [List.dropWhile_cons, hp]

theorem lstripData_cons_of_not_ws (c : Char) (l : List Char)
    (h : c.isWhitespace = false) : lstripData (c :: l) = c :: l := by
  simp [lstripData, List.dropWhile_cons, h]

theorem rstripData_append_last (a b : List Char) (c : Char)
    (h : c.isWhitespace = false) :
    rstripData ((a ++ [c]) ++ b) = (a ++ [c]) ++ rstripData b := by
  unfold rstripData
  rw [List.reverse_append, List.reverse_append,
    dropWhile_append₂ Char.isWhitespace b.reverse]
  by_cases he : (b.reverse.dropWhile Char.isWhitespace).isEmpty = true
  · rw [if_pos he]
    have hnil : b.reverse.dropWhile Char.isWhitespace = [] := by
      simpa [List.isEmpty_iff] using he
    simp [hnil, List.dropWhile_cons, h]
  · rw [if_neg he]
    simp [List.dropWhile_cons, h]

theorem pyStrip_general (mid tail : List Char) :
    rstripData (lstripData (('*' :: mid) ++ ([':'] ++ (' ' :: (tail ++ ['\n'])))))
      = (('*' :: mid) ++ [':'])
        ++ rstripData (' ' :: (tail ++ ['\n'])) := by
  have h1 : ('*' :: mid) ++ ([':'] ++ (' ' :: (tail ++ ['\n'])))
      = '*' :: (mid ++ ([':'] ++ (' ' :: (tail ++ ['\n'])))) := by
    simp [List.cons_append]
  rw [h1, lstripData_cons_of_not_ws '*' _ (by decide)]
  have h2 : '*' :: (mid ++ ([':'] ++ (' ' :: (tail ++ ['\n']))))
      = (('*' :: mid) ++ [':']) ++ (' ' :: (tail ++ ['\n'])) := by
    simp [List.cons_append, List.append_assoc]
  rw [h2, rstripData_append_last _ _ ':' (by decide)]

theorem hybrid_decomposition (s : OState) :
    ∃ t a b : List Char,
      (pyStrip (hybridText s)).data = "**CODE SOLUTION:**".data ++ t
      ∧ t = a ++ "**CONTEXT & EXPLANATION:**".data ++ b := by
  have hdata : (hybridText s).data =
      ('*' :: ("*CODE SOLUTION:**\n\n".data ++ s.code_expert_result.data
        ++ "\n\n---\n\n**CONTEXT & EXPLANATION:**\n\n".data
        ++ s.knowledge_result.data
        ++ "\n\n---\n\n**Metadata:**\n- Classification: ".data
        ++ (classificationText s.classification).data
        ++ "\n- Tools used: ".data ++ (joinToolsSet s.tools_used).data
        ++ "\n- Execution path".data))
      ++ ([':'] ++ (' ' :: ((String.intercalate " → " s.execution_path).data
          ++ ['\n']))) := by
    simp [hybridText, String.data_append, List.append_assoc]
  have hfinal : (pyStrip (hybridText s)).data =
      (('*' :: ("*CODE SOLUTION:**\n\n".data ++ s.code_expert_result.data
        ++ "\n\n---\n\n**CONTEXT & EXPLANATION:**\n\n".data
        ++ s.knowledge_result.data
        ++ "\n\n---\n\n**Metadata:**\n- Classification: ".data
        ++ (classificationText s.classification).data
        ++ "\n- Tools used: ".data ++ (joinToolsSet s.tools_used).data
        ++ "\n- Execution path".data)) ++ [':'])
      ++ rstripData (' ' :: ((String.intercalate " → " s.execution_path).data
          ++ ['\n'])) := by
    rw [pyStrip_data, hdata, pyStrip_general]
  refine ⟨"\n\n".data ++ s.code_expert_result.data ++ "\n\n---\n\n".data
      ++ "**CONTEXT & EXPLANATION:**".data
      ++ ("\n\n".data ++ s.knowledge_result.data
        ++ "\n\n---\n\n**Metadata:**\n- Classification: ".data
        ++ (classificationText s.classification).data
        ++ "\n- Tools used: ".data ++ (joinToolsSet s.tools_used).data
        ++ "\n- Execution path".data ++ [':']
        ++ rstripData (' ' :: ((String.intercalate " → " s.execution_path).data
            ++ ['\n']))),
    "\n\n".data ++ s.code_expert_result.data ++ "\n\n---\n\n".data,
    "\n\n".data ++ s.knowledge_result.data
      ++ "\n\n---\n\n**Metadata:**\n- Classification: ".data
      ++ (classificationText s.classification).data
      ++ "\n- Tools used: ".data ++ (joinToolsSet s.tools_used).data
      ++ "\n- Execution path".data ++ [':']
      ++ rstripData (' ' :: ((String.intercalate " → " s.execution_path).data
          ++ ['\n'])), ?_, ?_⟩
  · rw [hfinal]
    simp [List.append_assoc, List.cons_append]
  · simp [List.append_assoc]

theorem data_eq_nil_iff (s : String) : s.data = [] ↔ s = "" := by
  constructor
  · intro h; exact String.ext h
  · intro h; subst h; rfl

/-- `compose_response` always produces a non-empty response. -/
theorem compose_final_response_ne_empty (s : OState) :
    (compose_response s).final_response ≠ "" := by
  by_cases hc : s.code_expert_result ≠ ""
  · by_cases hk : s.knowledge_result ≠ ""
    · have hfinal : (compose_response s).final_response
          = pyStrip (hybridText s) := by
        simp [compose_response, hc, hk]
      rw [hfinal]
      intro hnil
      obtain ⟨t, a, b, hdecomp, _⟩ := hybrid_decomposition s
      rw [hnil] at hdecomp
      have : ("" : String).data = [] := rfl
      rw [this] at hdecomp
      exact absurd hdecomp.symm (by simp)
    · have hfinal : (compose_response s).final_response
          = s.code_expert_result := by
        simp [compose_response, hc, hk]
      rw [hfinal]; exact hc
  · by_cases hk : s.knowledge_result ≠ ""
    · have hfinal : (compose_response s).final_response
          = s.knowledge_result := by
        simp [compose_response, hc, hk]
      rw [hfinal]; exact hk
    · have hfinal : (compose_response s).final_response
          = "Unable to generate response. Please try again." := by
        simp [compose_response, hc, hk]
      rw [hfinal]; decide

/-! ## Claim theorems -/

/-- C3, counterexample: with `required = ["lsp", "filesystem"]` in the
`shell` context under degrade mode, `missingRequired = ["lsp"]` is
non-empty, yet the successful resolution still contains the available
required tool `"filesystem"` — the claim's `resolved_req = ∅` is false. -/
theorem c3_counterexample :
    resolve_tools ["lsp", "filesystem"] [] "shell" "degrade"
      = Except.ok { resolved := ["filesystem"], missing_required := ["lsp"],
                    missing_optional := [],
                    available_in_context := ["filesystem", "git", "web-search"] }
    ∧ (["filesystem"] : List String) ≠ [] := by
  exact ⟨rfl, by decide⟩

/-- C3 amended: with a non-empty `missingRequired` and
`fallbackMode = Fail`, `resolve_tools` fails naming exactly
`missingRequired`; with any other fallback mode it returns successfully,
`missing_required` names exactly the unavailable required tools, and the
resolved list contains exactly the requested names that are available in
the context (so available required tools are kept, not dropped to ∅). -/
theorem c3_amended (required optional : List String) (context : String) :
    (required.filter (fun n => decide (n ∉ available_tool_names context)) ≠ [] →
      resolve_tools required optional context "fail"
        = Except.error (required.filter
            (fun n => decide (n ∉ available_tool_names context))))
    ∧ (∀ fallback_mode, fallback_mode ≠ "fail" →
        ∃ r, resolve_tools required optional context fallback_mode = Except.ok r
          ∧ r.missing_required = required.filter
              (fun n => decide (n ∉ available_tool_names context))
          ∧ (∀ n, n ∈ r.resolved ↔
              ((n ∈ required ∨ n ∈ optional) ∧ n ∈ available_tool_names context))) := by
  constructor
  · intro h
    simp only [resolve_tools]
    rw [if_pos (And.intro h trivial)]
  · intro fm hfm
    refine ⟨_, resolve_tools_ok required optional context fm (fun hc => hfm hc.2), rfl, ?_⟩
    intro n
    simp only [List.mem_append, List.mem_filter, decide_eq_true_eq]
    constructor
    · rintro (⟨hr, ha⟩ | ⟨ho, ha⟩)
      · exact ⟨Or.inl hr, ha⟩
      · exact ⟨Or.inr ho, ha⟩
    · rintro ⟨hr | ho, ha⟩
      · exact Or.inl ⟨hr, ha⟩
      · exact Or.inr ⟨ho, ha⟩

/-- C3 amended, witness: in the `nvim` context, `web-search` is
unavailable; under `fail` the resolver errors naming it, under `degrade`
it succeeds and keeps the available required tool `filesystem`. -/
theorem c3_amended_witness :
    resolve_tools ["web-search"] [] "nvim" "fail" = Except.error ["web-search"]
    ∧ ∃ r, resolve_tools ["web-search", "filesystem"] [] "nvim" "degrade"
        = Except.ok r ∧ "filesystem" ∈ r.resolved := by
  constructor
  · exact (c3_amended ["web-search"] [] "nvim").1 (by decide)
  · obtain ⟨r, hr, _, hmem⟩ :=
      (c3_amended ["web-search", "filesystem"] [] "nvim").2 "degrade" (by decide)
    exact ⟨r, hr, (hmem "filesystem").mpr (by decide)⟩

/-- C10: whenever `resolve_tools` succeeds, the resolved list is the
required pass followed by the optional pass (caller order, duplicates
kept), each available name occurs as often as in `required` and
`optional` together, unavailable names never occur, and a name present
in both lists and available occurs at least twice. -/
theorem c10_resolve_duplicates (required optional : List String)
    (context fallback_mode : String) (r : ToolResolution) (n : String)
    (h : resolve_tools required optional context fallback_mode = Except.ok r) :
    r.resolved = required.filter
        (fun m => decide (m ∈ available_tool_names context))
      ++ optional.filter (fun m => decide (m ∈ available_tool_names context))
    ∧ (n ∈ available_tool_names context →
        r.resolved.count n = required.count n + optional.count n)
    ∧ (n ∉ available_tool_names context → r.resolved.count n = 0)
    ∧ (n ∈ available_tool_names context → n ∈ required → n ∈ optional →
        2 ≤ r.resolved.count n) := by
  by_cases hc : required.filter
      (fun m => decide (m ∉ available_tool_names context)) ≠ []
    ∧ fallback_mode = "fail"
  · rw [resolve_tools, if_pos hc] at h; cases h
  rw [resolve_tools_ok required optional context fallback_mode hc] at h
  injection h with h
  subst h
  dsimp only
  refine ⟨rfl, ?_, ?_, ?_⟩
  · intro ha
    rw [List.count_append, List.count_filter (by simpa using ha),
      List.count_filter (by simpa using ha)]
  · intro ha
    rw [List.count_eq_zero]
    simp only [List.mem_append, List.mem_filter, decide_eq_true_eq]
    rintro (⟨_, h⟩ | ⟨_, h⟩) <;> exact ha h
  · intro ha hr ho
    rw [List.count_append, List.count_filter (by simpa using ha),
      List.count_filter (by simpa using ha)]
    have h1 : 0 < required.count n := List.count_pos_iff.mpr hr
    have h2 : 0 < optional.count n := List.count_pos_iff.mpr ho
    omega

/-- C10, witness: `filesystem` requested both as required and optional
in the `shell` context appears twice in the resolved list. -/
theorem c10_resolve_duplicates_witness :
    2 ≤ (List.count "filesystem"
      (["filesystem", "filesystem"] : List String)) := by
  have h := c10_resolve_duplicates ["filesystem"] ["filesystem"] "shell"
    "degrade"
    { resolved := ["filesystem", "filesystem"], missing_required := [],
      missing_optional := [],
      available_in_context := ["filesystem", "git", "web-search"] }
    "filesystem" rfl
  exact h.2.2.2 (by decide) (by decide) (by decide)

/-- C5, counterexample: in an invocation during which the tool
`read_file` was actually invoked by the agent loop, the returned
output's tools list is `[]` — it does not contain the actually invoked
tool (nor the resolved tool `lsp`): the `tools_used=` keyword is dropped
because the declared field is `toolsused`, which keeps its default. -/
theorem c5_counterexample :
    (codeExpert_invocation ["read_file"] "use a dict" ["lsp"] "nvim").toolsused
      = []
    ∧ (["read_file"] : List String) ≠ []
    ∧ (codeExpert_invocation ["read_file"] "use a dict" ["lsp"] "nvim").toolsused
        ≠ ["read_file"] := by
  exact ⟨rfl, by decide, by decide⟩

/-- C5 amended: for every Agent Unit invocation, the tools list of the
returned output is the empty list, independent of both the tools
resolved as available and the tools actually invoked: each `_execute`
passes the resolved list as the unknown keyword `tools_used=`, which
pydantic drops since the declared `AgentOutput` field is `toolsused`,
and the invoked names collected in `process_with_tools` are never stored
in the output. -/
theorem c5_amended (invoked : List String) (response : String)
    (resolved : List String) (context : String) :
    (codeExpert_invocation invoked response resolved context).toolsused = []
    ∧ (knowledgeScout_execute response resolved context).toolsused = []
    ∧ (supervisor_execute response resolved).toolsused = [] := by
  exact ⟨rfl, rfl, rfl⟩

/-- C7: `compose_response` is total and, in each of the four
emptiness combinations of the two specialist results, returns a
non-empty string; with both results non-empty the code section header
starts the response and the explanation header occurs after it; with
exactly one non-empty result that result is returned verbatim; with
neither, the fixed "unable to generate response" message is returned. -/
theorem c7_compose_total (s : OState) :
    (compose_response s).final_response ≠ ""
    ∧ (s.code_expert_result ≠ "" → s.knowledge_result ≠ "" →
        ∃ t a b : List Char,
          (compose_response s).final_response.data
            = "**CODE SOLUTION:**".data ++ t
          ∧ t = a ++ "**CONTEXT & EXPLANATION:**".data ++ b)
    ∧ (s.code_expert_result ≠ "" → s.knowledge_result = "" →
        (compose_response s).final_response = s.code_expert_result)
    ∧ (s.code_expert_result = "" → s.knowledge_result ≠ "" →
        (compose_response s).final_response = s.knowledge_result)
    ∧ (s.code_expert_result = "" → s.knowledge_result = "" →
        (compose_response s).final_response
          = "Unable to generate response. Please try again.") := by
  refine ⟨compose_final_response_ne_empty s, ?_, ?_, ?_, ?_⟩
  · intro hc hk
    have hfinal : (compose_response s).final_response
        = pyStrip (hybridText s) := by
      simp [compose_response, hc, hk]
    rw [hfinal]
    exact hybrid_decomposition s
  · intro hc hk
    simp [compose_response, hc, hk]
  · intro hc hk
    simp [compose_response, hc, hk]
  · intro hc hk
    simp [compose_response, hc, hk]

/-- C7, witness: the empty-empty state produces the fixed message and a
code-only state returns the code result verbatim. -/
theorem c7_compose_total_witness :
    (compose_response { query := "q", context := "shell" }).final_response
      = "Unable to generate response. Please try again."
    ∧ (compose_response { query := "q", context := "shell", code_expert_result := "CODE" }).final_response
      = "CODE" := by
  constructor
  · exact (c7_compose_total { query := "q", context := "shell" }).2.2.2.2
      rfl rfl
  · exact (c7_compose_total { query := "q", context := "shell", code_expert_result := "CODE" }).2.2.1
      (by decide) rfl

/-- C6, counterexample: the unrecognized token `BANANA` is returned by
the parser as-is and stored as the classification; it is not replaced by
`CODE_TASK`, and nothing is recorded in the error log. -/
theorem c6_counterexample :
    parse_classification "CLASSIFICATION: BANANA" = "BANANA"
    ∧ "BANANA" ≠ "CODE_TASK"
    ∧ (classify_task (SupOutcome.returns "CLASSIFICATION: BANANA" [])
        { query := "q", context := "shell" }).classification = some "BANANA"
    ∧ (classify_task (SupOutcome.returns "CLASSIFICATION: BANANA" [])
        { query := "q", context := "shell" }).errors = [] := by
  exact ⟨by decide, by decide, by decide, rfl⟩

theorem classificationLoop_default (lines : List String)
    (h : ∀ l ∈ lines, (pySplitOn "CLASSIFICATION:" l).get? 1 = none) :
    classificationLoop lines = "CODE_TASK" := by
  induction lines with
  | nil => rfl
  | cons line rest ih =>
    have hline := h line (List.mem_cons_self _ _)
    simp only [classificationLoop, hline]
    exact ih (fun l hl => h l (List.mem_cons.mpr (Or.inr hl)))

/-- C6 amended: when no line of the classifier output contains a
`CLASSIFICATION:` marker the parser defaults to `CODE_TASK`; an
unrecognized token is kept as the classification but the router sends
every token other than `HYBRID_TASK`/`RESEARCH_TASK` down the code
branch; in the non-raising path the classify stage never touches the
error log, so the defaulting is not recorded there. -/
theorem c6_classification_default_amended :
    (∀ response : String,
      (∀ l ∈ pySplitOn "\n" response,
        (pySplitOn "CLASSIFICATION:" l).get? 1 = none) →
      parse_classification response = "CODE_TASK")
    ∧ (∀ (s : OState) (cls : String), s.classification = some cls →
        cls ≠ "HYBRID_TASK" → cls ≠ "RESEARCH_TASK" →
        route_after_classification s = "code")
    ∧ (∀ (respText : String) (stools : List String) (s : OState),
        (classify_task (SupOutcome.returns respText stools) s).errors
          = s.errors
        ∧ (classify_task (SupOutcome.returns respText stools) s).classification
          = some (parse_classification respText)) := by
  refine ⟨?_, ?_, ?_⟩
  · intro response h
    exact classificationLoop_default (pySplitOn "\n" response) h
  · intro s cls hcls h1 h2
    unfold route_after_classification
    rw [hcls]
    by_cases he : cls = ""
    · subst he; simp
    · simp [he, h1, h2]
  · intro respText stools s
    exact ⟨rfl, rfl⟩

/-- C6 amended, witness: a reply with no marker parses to `CODE_TASK`,
and an unrecognized stored token routes to the code branch. -/
theorem c6_classification_default_amended_witness :
    parse_classification "hello there" = "CODE_TASK"
    ∧ route_after_classification { query := "q", context := "shell", classification := some "BANANA" }
      = "code" := by
  constructor
  · exact c6_classification_default_amended.1 "hello there" (by decide)
  · exact c6_classification_default_amended.2.1
      { query := "q", context := "shell", classification := some "BANANA" }
      "BANANA" rfl (by decide) (by decide)

/-- C8, counterexample: with a working directory that is not an existing
directory, `allowed_roots` silently falls back to the home directory:
the roots are `[home]` but the emitted warning trace is empty — the
claimed warning is never logged (`AgentContext.allowed_roots` contains
no logging call at all). -/
theorem c8_counterexample :
    (allowed_roots isDir₀ resolveId₀ "/home/user" ContextSource.shell
        "/does/not/exist").1 = ["/home/user"]
    ∧ (allowed_roots isDir₀ resolveId₀ "/home/user" ContextSource.shell
        "/does/not/exist").2 = [] := by
  exact ⟨by decide, rfl⟩

/-- C8 amended: for every source and working directory, the derived
roots list is non-empty and every entry is an existing absolute
directory (given that the home directory is one and the resolver yields
absolute paths); an invalid working directory falls back to the home
directory silently — no warning is logged. -/
theorem c8_allowed_roots_amended (isDir isAbs : String → Bool)
    (resolvePath : String → String) (home : String)
    (source : ContextSource) (working_dir : String)
    (hhome : isDir home = true) (habs_home : isAbs home = true)
    (habs : ∀ p, isAbs (resolvePath p) = true) :
    (allowed_roots isDir resolvePath home source working_dir).1 ≠ []
    ∧ (∀ r ∈ (allowed_roots isDir resolvePath home source working_dir).1,
        isDir r = true ∧ isAbs r = true)
    ∧ (isDir (resolvePath working_dir) = false →
        (allowed_roots isDir resolvePath home source working_dir).1 = [home])
    ∧ (allowed_roots isDir resolvePath home source working_dir).2 = [] := by
  by_cases hw : isDir (resolvePath working_dir) = true
  · cases source <;>
      simp [allowed_roots, hw, habs working_dir]
  · cases source <;>
      simp [allowed_roots, hw, hhome, habs_home]

/-- C8 amended, witness: with the one-directory filesystem and a valid
working directory, the roots are non-empty, existing and absolute. -/
theorem c8_allowed_roots_amended_witness :
    (allowed_roots isDir₀ resolveId₀ "/home/user" ContextSource.nvim
        "/home/user").1 ≠ []
    ∧ ∀ r ∈ (allowed_roots isDir₀ resolveId₀ "/home/user" ContextSource.nvim
        "/home/user").1, isDir₀ r = true ∧ alwaysAbs r = true := by
  have h := c8_allowed_roots_amended isDir₀ alwaysAbs resolveId₀ "/home/user"
    ContextSource.nvim "/home/user" (by decide) rfl (fun p => rfl)
  exact ⟨h.1, h.2.1⟩

/-- C9, counterexample: on a `CODE_TASK` run the recorded execution path
is `["classify_task", "code_expert", "compose_response"]`, which is not
the claimed `["classify", "codeexpert", "compose"]` (the stage names
differ), although the response is the code specialist's content
verbatim. -/
theorem c9_counterexample :
    (executeOrchestration (SupOutcome.returns "CLASSIFICATION: CODE_TASK\nREASONING: bug fix" [])
        (AgOutcome.returns "fixed code" []) (AgOutcome.returns "" [])
        "fix this null pointer bug" "shell").execution_path
      = ["classify_task", "code_expert", "compose_response"]
    ∧ (["classify_task", "code_expert", "compose_response"] : List String)
        ≠ ["classify", "codeexpert", "compose"]
    ∧ (executeOrchestration (SupOutcome.returns "CLASSIFICATION: CODE_TASK\nREASONING: bug fix" [])
        (AgOutcome.returns "fixed code" []) (AgOutcome.returns "" [])
        "fix this null pointer bug" "shell").response = "fixed code" := by
  exact ⟨by decide, by decide, by decide⟩

/-- C9 amended: for every request whose classifier reply parses to
`CODE_TASK` and whose code specialist returns non-empty content, the
execution path equals `["classify_task", "code_expert",
"compose_response"]` and the response is the specialist's content
verbatim. -/
theorem c9_code_task_amended (respText q c content : String)
    (ctools stools : List String) (ks : AgOutcome)
    (h1 : parse_classification respText = "CODE_TASK") (h2 : content ≠ "") :
    (executeOrchestration (SupOutcome.returns respText stools)
        (AgOutcome.returns content ctools) ks q c).execution_path
      = ["classify_task", "code_expert", "compose_response"]
    ∧ (executeOrchestration (SupOutcome.returns respText stools)
        (AgOutcome.returns content ctools) ks q c).response = content := by
  constructor <;>
    simp [executeOrchestration, build_graph_run, classify_task,
      route_after_classification, execute_code_expert, compose_response,
      h1, h2]

/-- C9 amended, witness: a concrete `CODE_TASK` run. -/
theorem c9_code_task_amended_witness :
    (executeOrchestration (SupOutcome.returns "CLASSIFICATION: CODE_TASK" [])
        (AgOutcome.returns "patched" []) AgOutcome.missing
        "fix this null pointer bug" "shell").execution_path
      = ["classify_task", "code_expert", "compose_response"]
    ∧ (executeOrchestration (SupOutcome.returns "CLASSIFICATION: CODE_TASK" [])
        (AgOutcome.returns "patched" []) AgOutcome.missing
        "fix this null pointer bug" "shell").response = "patched" := by
  exact c9_code_task_amended "CLASSIFICATION: CODE_TASK"
    "fix this null pointer bug" "shell" "patched" [] [] AgOutcome.missing
    (by decide) (by decide)

/-- C1: on a `HYBRID_TASK` classification the graph's conditional edge
routes to `code_expert` alone, whose only outgoing edge goes to
`compose`, so `knowledge_scout` never runs: the execution path has no
knowledge-scout stage and the response is the code result alone (no
explanation section), contradicting the orchestrator's own docstring
(`HYBRID_TASK → Both`). -/
theorem c1_hybrid_runs_only_code_expert :
    (executeOrchestration (SupOutcome.returns "CLASSIFICATION: HYBRID_TASK" [])
        (AgOutcome.returns "def cache(): pass" [])
        (AgOutcome.returns "A cache stores recent results." [])
        "implement and explain a cache" "shell").execution_path
      = ["classify_task", "code_expert", "compose_response"]
    ∧ "knowledge_scout" ∉
        (executeOrchestration (SupOutcome.returns "CLASSIFICATION: HYBRID_TASK" [])
          (AgOutcome.returns "def cache(): pass" [])
          (AgOutcome.returns "A cache stores recent results." [])
          "implement and explain a cache" "shell").execution_path
    ∧ (executeOrchestration (SupOutcome.returns "CLASSIFICATION: HYBRID_TASK" [])
        (AgOutcome.returns "def cache(): pass" [])
        (AgOutcome.returns "A cache stores recent results." [])
        "implement and explain a cache" "shell").response
      = "def cache(): pass" := by
  exact ⟨by decide, by decide, by decide⟩

/-- C4, counterexample: when the classifier agent is totally unavailable
the request is not aborted and no top-level error response is produced:
the run continues through the code branch and returns the specialist's
content as the response, with the fault merely recorded in `errors`. -/
theorem c4_counterexample :
    (executeOrchestration SupOutcome.missing (AgOutcome.returns "patched code" [])
        (AgOutcome.returns "notes" []) "fix bug" "shell").response
      = "patched code"
    ∧ (executeOrchestration SupOutcome.missing (AgOutcome.returns "patched code" [])
        (AgOutcome.returns "notes" []) "fix bug" "shell").errors
      = ["Supervisor agent not available"]
    ∧ (executeOrchestration SupOutcome.missing (AgOutcome.returns "patched code" [])
        (AgOutcome.returns "notes" []) "fix bug" "shell").execution_path
      = ["classify_task (failed)", "code_expert", "compose_response"]
    ∧ (executeOrchestration SupOutcome.missing (AgOutcome.returns "patched code" [])
        (AgOutcome.returns "notes" []) "fix bug" "shell").classification
      = none := by
  exact ⟨by decide, by decide, by decide, by decide⟩

/-- C4 amended: no fault of any agent aborts the orchestration — also
not a fault of the classifier: the caller always receives a structured
result whose response is non-empty and whose last stage is `compose`;
classifier unavailability and classifier exceptions are recorded in the
errors list (the latter defaulting the classification to `CODE_TASK`)
and the pipeline proceeds. -/
theorem c4_error_containment_amended (sup : SupOutcome) (ce ks : AgOutcome)
    (q c : String) :
    (executeOrchestration sup ce ks q c).response ≠ ""
    ∧ (executeOrchestration sup ce ks q c).execution_path.getLast?
        = some "compose_response"
    ∧ (sup = SupOutcome.missing →
        "Supervisor agent not available" ∈ (executeOrchestration sup ce ks q c).errors)
    ∧ (∀ m, sup = SupOutcome.raises m →
        (executeOrchestration sup ce ks q c).classification = some "CODE_TASK"
        ∧ ("Classification error: " ++ m) ∈ (executeOrchestration sup ce ks q c).errors) := by
  refine ⟨?_, ?_, ?_, ?_⟩
  · exact compose_final_response_ne_empty _
  · exact List.getLast?_concat _
  · intro h
    subst h
    rcases ce with _ | m | ⟨content, tools⟩ <;>
      simp [executeOrchestration, build_graph_run, classify_task,
        route_after_classification, execute_code_expert, compose_response]
  · intro m h
    subst h
    rcases ce with _ | m2 | ⟨content, tools⟩ <;>
      exact ⟨by simp [executeOrchestration, build_graph_run, classify_task,
          route_after_classification, execute_code_expert, compose_response],
        by simp [executeOrchestration, build_graph_run, classify_task,
          route_after_classification, execute_code_expert, compose_response]⟩

/-- C4 amended, witness: a run with an unavailable classifier and a
raising code expert still returns a structured, compose-terminated
result recording the classifier fault. -/
theorem c4_error_containment_amended_witness :
    (executeOrchestration SupOutcome.missing (AgOutcome.raises "boom")
        (AgOutcome.returns "" []) "x" "shell").response ≠ ""
    ∧ (executeOrchestration SupOutcome.missing (AgOutcome.raises "boom")
        (AgOutcome.returns "" []) "x" "shell").execution_path.getLast?
      = some "compose_response"
    ∧ "Supervisor agent not available" ∈
        (executeOrchestration SupOutcome.missing (AgOutcome.raises "boom")
          (AgOutcome.returns "" []) "x" "shell").errors := by
  have h := c4_error_containment_amended SupOutcome.missing
    (AgOutcome.raises "boom") (AgOutcome.returns "" []) "x" "shell"
  exact ⟨h.1, h.2.1, h.2.2.1 rfl⟩

theorem rootsLoop_eq_true_iff (res : String → Option (List String))
    (target : List String) (roots : List String)
    (h : ∀ r ∈ roots, (res r).isSome) :
    rootsLoop res target roots = true ↔
      ∃ r ∈ roots, ∃ ar, res r = some ar ∧ ar.isPrefixOf target = true := by
  induction roots with
  | nil => simp [rootsLoop]
  | cons r rs ih =>
    obtain ⟨ar, har⟩ :=
      Option.isSome_iff_exists.mp (h r (List.mem_cons_self _ _))
    simp only [rootsLoop, har]
    by_cases hp : ar.isPrefixOf target = true
    · rw [if_pos hp]
      constructor
      · intro _; exact ⟨r, List.mem_cons_self _ _, ar, har, hp⟩
      · intro _; rfl
    · rw [if_neg hp, ih (fun x hx => h x (List.mem_cons.mpr (Or.inr hx)))]
      constructor
      · rintro ⟨x, hx, ax, hax, hpx⟩
        exact ⟨x, List.mem_cons.mpr (Or.inr hx), ax, hax, hpx⟩
      · rintro ⟨x, hx, ax, hax, hpx⟩
        rcases List.mem_cons.mp hx with heq | hx'
        · subst heq; rw [har] at hax; cases hax; exact absurd hpx hp
        · exact ⟨x, hx', ax, hax, hpx⟩

theorem is_path_allowed_eq_true_iff (res : String → Option (List String))
    (roots : List String) (p : String)
    (h : ∀ r ∈ roots, (res r).isSome) :
    is_path_allowed res roots p = true ↔
      ∃ target, res p = some target ∧ ∃ r ∈ roots, ∃ ar,
        res r = some ar ∧ ar.isPrefixOf target = true := by
  unfold is_path_allowed
  cases hp : res p with
  | none => simp
  | some t =>
    rw [rootsLoop_eq_true_iff res t roots h]
    constructor
    · intro h'; exact ⟨t, rfl, h'⟩
    · rintro ⟨t', ht', h'⟩
      rw [Option.some.injEq] at ht'
      subst ht'
      exact h'

theorem checkFields_allow_iff (res : String → Option (List String))
    (roots : List String) (sourceVal : String)
    (args : List (String × String)) (fields : List String) :
    checkFields res roots sourceVal args fields = Decision.allow ↔
      ∀ f ∈ fields, ∀ p, lookupArg args f = some p →
        is_path_allowed res roots p = true := by
  induction fields with
  | nil => simp [checkFields]
  | cons f fs ih =>
    cases hl : lookupArg args f with
    | none =>
      simp only [checkFields, hl]
      rw [ih]
      constructor
      · intro h' g hg p hp
        rcases List.mem_cons.mp hg with heq | hg'
        · subst heq; rw [hl] at hp; cases hp
        · exact h' g hg' p hp
      · intro h' g hg p hp
        exact h' g (List.mem_cons.mpr (Or.inr hg)) p hp
    | some p =>
      simp only [checkFields, hl]
      by_cases hall : is_path_allowed res roots p = true
      · rw [if_pos hall, ih]
        constructor
        · intro h' g hg q hq
          rcases List.mem_cons.mp hg with heq | hg'
          · subst heq; rw [hl] at hq; cases hq; exact hall
          · exact h' g hg' q hq
        · intro h' g hg q hq
          exact h' g (List.mem_cons.mpr (Or.inr hg)) q hq
      · rw [if_neg hall]
        constructor
        · intro hd; exact absurd hd (by simp)
        · intro h'
          exact absurd (h' f (List.mem_cons_self _ _) p hl) hall

/-- C2: for a tool outside the filesystem mapping the guard always
allows; for a mapped tool it allows exactly when every path present in a
mapped argument field resolves and the resolved path equals an allowed
root's resolved form or extends it (is a descendant); a path whose
resolution fails is always denied.  (The allowed roots are assumed to
resolve, as `AgentContext.allowed_roots` guarantees existing
directories.) -/
theorem c2_access_guard (res : String → Option (List String))
    (roots : List String) (src toolName : String)
    (args : List (String × String))
    (hroots : ∀ r ∈ roots, (res r).isSome) :
    (FILESYSTEM_TOOLS.lookup toolName = none →
      validate_tool_call res roots src toolName args = Decision.allow)
    ∧ (∀ fields, FILESYSTEM_TOOLS.lookup toolName = some fields →
        (validate_tool_call res roots src toolName args = Decision.allow ↔
          ∀ f ∈ fields, ∀ p, lookupArg args f = some p →
            ∃ target, res p = some target ∧ ∃ r ∈ roots, ∃ ar,
              res r = some ar ∧ ∃ rest, target = ar ++ rest))
    ∧ (∀ fields f p, FILESYSTEM_TOOLS.lookup toolName = some fields →
        f ∈ fields → lookupArg args f = some p → res p = none →
        validate_tool_call res roots src toolName args ≠ Decision.allow) := by
  refine ⟨?_, ?_, ?_⟩
  · intro h
    simp only [validate_tool_call, h]
  · intro fields hf
    simp only [validate_tool_call, hf]
    rw [checkFields_allow_iff]
    constructor
    · intro h' f hfm p hp
      obtain ⟨t, ht, r, hr, ar, har, hpre⟩ :=
        (is_path_allowed_eq_true_iff res roots p hroots).mp (h' f hfm p hp)
      exact ⟨t, ht, r, hr, ar, har, (isPrefixOf_iff_append ar t).mp hpre⟩
    · intro h' f hfm p hp
      obtain ⟨t, ht, r, hr, ar, har, rest, hrest⟩ := h' f hfm p hp
      exact (is_path_allowed_eq_true_iff res roots p hroots).mpr
        ⟨t, ht, r, hr, ar, har, (isPrefixOf_iff_append ar t).mpr ⟨rest, hrest⟩⟩
  · intro fields f p hf hfm hp hnone
    simp only [validate_tool_call, hf]
    intro hallow
    have hall := (checkFields_allow_iff res roots src args fields).mp
      hallow f hfm p hp
    simp [is_path_allowed, hnone] at hall

/-- C2, witness: the unmapped tool `web_search` is allowed without any
path check even with an out-of-root path argument, and a `read_file`
call on a file inside the allowed root is allowed. -/
theorem c2_access_guard_witness :
    validate_tool_call res₀ ["/home/user/project"] "shell" "web_search"
      [("path", "/etc/passwd")] = Decision.allow
    ∧ validate_tool_call res₀ ["/home/user/project"] "shell" "read_file"
      [("path", "/home/user/project/notes.txt")] = Decision.allow := by
  constructor
  · exact (c2_access_guard res₀ ["/home/user/project"] "shell" "web_search"
      [("path", "/etc/passwd")] (by decide)).1 (by decide)
  · refine ((c2_access_guard res₀ ["/home/user/project"] "shell" "read_file"
      [("path", "/home/user/project/notes.txt")] (by decide)).2.1
      ["path"] (by decide)).mpr ?_
    intro f hf p hp
    have hfe : f = "path" := by
      rcases List.mem_cons.mp hf with heq | h0
      · exact heq
      · cases h0
    subst hfe
    have hpe : p = "/home/user/project/notes.txt" := by
      have := hp
      simp [lookupArg, List.lookup] at this
      exact this.symm
    subst hpe
    exact ⟨["home", "user", "project", "notes.txt"], by decide,
      "/home/user/project", by decide, ["home", "user", "project"],
      by decide, ["notes.txt"], by decide⟩

end AiAgentRuntime
